import Mathlib

/-!
Verification of `tools/bench_iterated_f.py`, a benchmark-orchestration script:
it runs an external benchmark for a fixed sweep of configurations, harvests
criterion timing statistics from the filesystem, and renders a LaTeX table.

The script is embedded shallowly: pure Python functions become Lean functions,
the filesystem and process environment become explicit function-valued inputs,
Python floats become rationals, and Python exception flow becomes an explicit
`PyResult` type distinguishing caught and propagating exceptions.
-/

namespace BenchIteratedF

/-- A single benchmark configuration: `class BenchConfig(NamedTuple)` with
fields `lanes` and `iterations`. -/
structure BenchConfig where
  lanes : Nat
  iterations : Nat
deriving DecidableEq, Repr

/-- Results from a benchmark run: `class BenchResult(NamedTuple)` with the
configuration and the three phase times in milliseconds. -/
structure BenchResult where
  config : BenchConfig
  witness_time_ms : ℚ
  proof_time_ms : ℚ
  verify_time_ms : ℚ
deriving DecidableEq, Repr

/-- The fixed list `BENCH_CONFIGS` of benchmark configurations to run. -/
def BENCH_CONFIGS : List BenchConfig := [
  ⟨1, 2^13⟩, ⟨1, 2^14⟩, ⟨1, 2^15⟩, ⟨1, 2^16⟩, ⟨1, 2^17⟩,
  ⟨4, 2^11⟩, ⟨4, 2^12⟩, ⟨4, 2^13⟩, ⟨4, 2^14⟩, ⟨4, 2^15⟩,
  ⟨16, 2^9⟩, ⟨16, 2^10⟩, ⟨16, 2^11⟩, ⟨16, 2^12⟩, ⟨16, 2^13⟩]

/-- A process environment: a partial map from variable names to values. -/
def Env : Type := String → Option String

/-- One Python dict assignment `env[k] = v` on an environment map. -/
def setVar (env : Env) (k v : String) : Env :=
  fun q => if q = k then some v else env q

/-- The environment handed to the benchmark subprocess by `run_benchmark`:
`env = os.environ.copy()`, then `env["ITERATIONS"] = str(config.iterations)`,
`env["LANES"] = str(config.lanes)`, and
`env["RUSTFLAGS"] = env.get("RUSTFLAGS", "") + " -C target-cpu=native"`. -/
def run_benchmark_env (parent : Env) (config : BenchConfig) : Env :=
  let env := parent
  let env := setVar env "ITERATIONS" (toString config.iterations)
  let env := setVar env "LANES" (toString config.lanes)
  setVar env "RUSTFLAGS" (((env "RUSTFLAGS").getD "") ++ " -C target-cpu=native")

/-- The three criterion measurement phases of the benchmark. -/
inductive Phase where
  | witness_generation
  | proof_generation
  | proof_verification
deriving DecidableEq, Repr

/-- The phase list iterated by `collect_results`, in source order:
`["witness_generation", "proof_generation", "proof_verification"]`. -/
def phases : List Phase :=
  [Phase.witness_generation, Phase.proof_generation, Phase.proof_verification]

/-- One child of a phase criterion directory, as seen by `iterdir()`:
its name and whether it is a directory. -/
structure Entry where
  name : String
  isDir : Bool
deriving DecidableEq, Repr

/-- The directory-name prefix computed inside `find_benchmark_dir`:
`f"iterations_{config.iterations}_"` when `config.lanes == 1`, else
`f"iterations_{config.iterations}_lanes_{config.lanes}_"`. -/
def prefixFor (config : BenchConfig) : String :=
  if config.lanes = 1 then
    "iterations_" ++ toString config.iterations ++ "_"
  else
    "iterations_" ++ toString config.iterations ++ "_lanes_" ++ toString config.lanes ++ "_"

/-- Prefix test on character sequences, auxiliary to `strStartsWith`. -/
def isPrefixChars : List Char → List Char → Bool
  | [], _ => true
  | _ :: _, [] => false
  | a :: as, b :: bs => a = b && isPrefixChars as bs

/-- Model of the Python method `str.startswith(p)`: the character sequence of `p` is a prefix
of the character sequence of `s`. -/
def strStartsWith (s p : String) : Bool :=
  isPrefixChars p.data s.data

/-- Model of `find_benchmark_dir`: `listing` models the criterion result root of the phase,
`none` when `criterion_dir.exists()` is false, otherwise the children in
`iterdir()` order. Returns the first child that is a directory and whose name
starts with the computed prefix, else `none`. -/
def find_benchmark_dir (listing : Option (List Entry)) (config : BenchConfig) :
    Option Entry :=
  match listing with
  | none => none
  | some entries =>
      entries.find? (fun e => e.isDir && strStartsWith e.name (prefixFor config))

/-- A parsed JSON value as the Python call `json.load` produces it (numbers are
modelled as rationals, booleans fold into numbers as in Python arithmetic). -/
inductive Json where
  | null
  | num (q : ℚ)
  | str (s : String)
  | arr (elems : List Json)
  | obj (fields : List (String × Json))

/-- First-match association lookup inside a JSON object, as a Python dict
lookup (dicts have unique keys; the first binding wins). -/
def Json.lookup : List (String × Json) → String → Option Json
  | [], _ => none
  | (k, v) :: rest, q => if q = k then some v else Json.lookup rest q

/-- The Python exception types that can arise in the `try` block of
`read_benchmark_time` after a successful parse. -/
inductive Exc where
  | keyError
  | typeError
deriving DecidableEq, Repr

/-- Outcome of evaluating a fragment of Python code: a value, or a raised
exception. -/
inductive PyResult (α : Type) where
  | ok (a : α)
  | raised (e : Exc)
deriving DecidableEq, Repr

/-- Python subscript `v[k]` with a string key: a `KeyError` on a dict missing
the key, a `TypeError` on any non-dict value. -/
def Json.getItem : Json → String → PyResult Json
  | Json.obj fields, k =>
      match Json.lookup fields k with
      | some v => PyResult.ok v
      | none => PyResult.raised Exc.keyError
  | _, _ => PyResult.raised Exc.typeError

/-- Python division `v / 1_000_000` of a JSON value by a number: numeric
values divide, every other value raises `TypeError`. -/
def Json.divideBy : Json → ℚ → PyResult ℚ
  | Json.num q, d => PyResult.ok (q / d)
  | _, _ => PyResult.raised Exc.typeError

/-- Content of the statistics file `<bench_dir>/new/estimates.json`:
missing, present but not valid JSON, or parsed. -/
inductive FileContent where
  | missing
  | invalid
  | parsed (v : Json)

/-- Model of `read_benchmark_time` on the content of `new/estimates.json`: `None`
when the file is missing; `json.JSONDecodeError` and `KeyError` are caught
and give `None`; any other exception from
`data["mean"]["point_estimate"] / 1_000_000` propagates. -/
def read_benchmark_time (content : FileContent) : PyResult (Option ℚ) :=
  match content with
  | FileContent.missing => PyResult.ok none
  | FileContent.invalid => PyResult.ok none
  | FileContent.parsed data =>
      match data.getItem "mean" with
      | PyResult.raised Exc.keyError => PyResult.ok none
      | PyResult.raised e => PyResult.raised e
      | PyResult.ok m =>
          match m.getItem "point_estimate" with
          | PyResult.raised Exc.keyError => PyResult.ok none
          | PyResult.raised e => PyResult.raised e
          | PyResult.ok p =>
              match p.divideBy 1000000 with
              | PyResult.raised e => PyResult.raised e
              | PyResult.ok q => PyResult.ok (some q)

/-- Whether `read_benchmark_time` prints its error diagnostic to `stderr`:
it does exactly when the `except (json.JSONDecodeError, KeyError)` handler
runs, i.e. on an unparsable file or a caught `KeyError`, and not on a
simply-missing file or a success. -/
def read_benchmark_time_logs (content : FileContent) : Bool :=
  match content with
  | FileContent.missing => false
  | FileContent.invalid => true
  | FileContent.parsed data =>
      match data.getItem "mean" with
      | PyResult.raised Exc.keyError => true
      | PyResult.raised _ => false
      | PyResult.ok m =>
          match m.getItem "point_estimate" with
          | PyResult.raised Exc.keyError => true
          | PyResult.raised _ => false
          | PyResult.ok _ => false

/-- Model of the filesystem state read by `collect_results`: for each phase,
the children of `target/criterion/iterated_f_{phase}` (or `none` when that
root does not exist), and for each phase and child-directory name the content
of its `new/estimates.json`. -/
structure FS where
  phaseDir : Phase → Option (List Entry)
  estimates : Phase → String → FileContent

/-- One loop iteration of `collect_results` for a phase: find the benchmark
directory (`None` makes the configuration yield `None`), then read the time
from its statistics file. -/
def collectPhase (fs : FS) (config : BenchConfig) (ph : Phase) :
    PyResult (Option ℚ) :=
  match find_benchmark_dir (fs.phaseDir ph) config with
  | none => PyResult.ok none
  | some d => read_benchmark_time (fs.estimates ph d.name)

/-- Model of `collect_results`: iterate the phases `witness_generation`,
`proof_generation`, `proof_verification` in order; any phase yielding `None`
makes the whole configuration yield `None`, any uncaught exception
propagates, and otherwise the three times are assembled into a `BenchResult`
as `times[0]`, `times[1]`, `times[2]`. -/
def collect_results (fs : FS) (config : BenchConfig) :
    PyResult (Option BenchResult) :=
  match collectPhase fs config Phase.witness_generation with
  | PyResult.raised e => PyResult.raised e
  | PyResult.ok none => PyResult.ok none
  | PyResult.ok (some w) =>
      match collectPhase fs config Phase.proof_generation with
      | PyResult.raised e => PyResult.raised e
      | PyResult.ok none => PyResult.ok none
      | PyResult.ok (some p) =>
          match collectPhase fs config Phase.proof_verification with
          | PyResult.raised e => PyResult.raised e
          | PyResult.ok none => PyResult.ok none
          | PyResult.ok (some v) => PyResult.ok (some ⟨config, w, p, v⟩)

/-- Fixed-point rendering of a rational with the given number of fractional
digits, modelling the Python formats `f"{x:.1f}"` / `f"{x:.2f}"` (the tie-breaking of
binary floating point is modelled by rational rounding). -/
def fmtFixed (q : ℚ) (digits : Nat) : String :=
  let p : ℤ := 10 ^ digits
  let scaled : ℤ := round (q * (p : ℚ))
  let fracDigits := toString (scaled % p).natAbs
  let pad := String.mk (List.replicate (digits - fracDigits.length) '0')
  toString (scaled / p) ++ "." ++ pad ++ fracDigits

/-- Model of `format_time`: under 1 ms render in microseconds with one decimal, under
1000 ms in milliseconds with one decimal, otherwise in seconds with two
decimals. -/
def format_time (time_ms : ℚ) : String :=
  if time_ms < 1 then
    fmtFixed (time_ms * 1000) 1 ++ " µs"
  else if time_ms < 1000 then
    fmtFixed time_ms 1 ++ " ms"
  else
    fmtFixed (time_ms / 1000) 2 ++ " s"

/-- Model of `format_power_of_two`: when `n > 0 and (n & (n - 1)) == 0`, render
`f"$2^{{{exp}}}$"` with `exp = int(math.log2(n))` (exact for powers of two,
i.e. `Nat.log2 n`); otherwise `str(n)`. -/
def format_power_of_two (n : Nat) : String :=
  if 0 < n ∧ n &&& (n - 1) = 0 then
    "$2^\x7b" ++ toString (Nat.log2 n) ++ "\x7d$"
  else
    toString n

/-- One data row of the LaTeX table, as formatted inside the loop of
`generate_latex_table`. -/
def renderRow (r : BenchResult) : String :=
  toString r.config.lanes ++ " & " ++
  format_power_of_two r.config.iterations ++ " & " ++
  format_power_of_two (r.config.lanes * r.config.iterations) ++ " & " ++
  format_time r.witness_time_ms ++ " & " ++
  format_time r.proof_time_ms ++ " & " ++
  format_time r.verify_time_ms ++ " \\\\"

/-- The result-row loop of `generate_latex_table`, threading the
`current_lanes` state: a `\midrule` line is appended before a row exactly
when `current_lanes is not None and lanes != current_lanes`. -/
def tableRows : Option Nat → List BenchResult → List String
  | _, [] => []
  | none, r :: rest => renderRow r :: tableRows (some r.config.lanes) rest
  | some l, r :: rest =>
      if r.config.lanes = l then
        renderRow r :: tableRows (some r.config.lanes) rest
      else
        "\\midrule" :: renderRow r :: tableRows (some r.config.lanes) rest

/-- The fixed lines appended to `lines` before the result loop. -/
def tablePreamble : List String := [
  "\\begin\x7btable\x7d[htbp]",
  "\\centering",
  "\\caption\x7bIterated f benchmark results\x7d",
  "\\label\x7btab:iterated-f-benchmark\x7d",
  "\\begin\x7btabular\x7d\x7brrrrrr\x7d",
  "\\toprule",
  "Lanes & Iterations & Total Ops & Witness Gen & Proof Gen & Verification \\\\",
  "\\midrule"]

/-- The fixed lines appended after the result loop. -/
def tablePostamble : List String := [
  "\\bottomrule",
  "\\end\x7btabular\x7d",
  "\\end\x7btable\x7d"]

/-- Model of `generate_latex_table`: the fixed preamble, the result rows with group
separators, the fixed postamble, joined by newlines. -/
def generate_latex_table (results : List BenchResult) : String :=
  String.intercalate "\n" (tablePreamble ++ tableRows none results ++ tablePostamble)

/-- Modelled from the words of the spec, for comparison with `tableRows`: one row
per result, with a single separator inserted between two consecutive rows
exactly when their `lanes` differ. -/
def sepInterleave : List BenchResult → List String
  | [] => []
  | [r] => [renderRow r]
  | a :: b :: rest =>
      renderRow a ::
        ((if b.config.lanes = a.config.lanes then [] else ["\\midrule"]) ++
          sepInterleave (b :: rest))

/-- Rows with equal `lanes` values are contiguous: collapsing adjacent
duplicates in the lane sequence leaves no repeated lane value. -/
def LanesContiguous (results : List BenchResult) : Prop :=
  ((results.map (fun r => r.config.lanes)).destutter (· ≠ ·)).Nodup

instance (results : List BenchResult) : Decidable (LanesContiguous results) :=
  inferInstanceAs (Decidable (List.Nodup _))

/-- Observable step of `main`: invoking the benchmark subprocess for a
configuration, or collecting the results of a configuration. -/
inductive Event where
  | runBench (c : BenchConfig)
  | collectFor (c : BenchConfig)
deriving DecidableEq, Repr

/-- The run loop of `main`: invoke each configuration in order, stopping at
the first failed invocation. Returns whether all invocations succeeded,
together with the trace of invocations actually performed. -/
def runPhase (runOk : BenchConfig → Bool) : List BenchConfig → Bool × List Event
  | [] => (true, [])
  | c :: rest =>
      if runOk c then
        let r := runPhase runOk rest
        (r.1, Event.runBench c :: r.2)
      else
        (false, [Event.runBench c])

/-- The collection loop of `main` over the filesystem model: each
configuration is passed to `collect_results` in order; a `None` outcome is
skipped, a present result is appended, and an uncaught exception aborts the
loop at the raising configuration and propagates, so the remaining
configurations are never visited. The second component is the trace of
collection steps actually performed. -/
def collectLoop (fs : FS) :
    List BenchConfig → PyResult (List BenchResult) × List Event
  | [] => (PyResult.ok [], [])
  | c :: rest =>
      match collect_results fs c with
      | PyResult.raised e => (PyResult.raised e, [Event.collectFor c])
      | PyResult.ok o =>
          let r := collectLoop fs rest
          match r.1 with
          | PyResult.raised e => (PyResult.raised e, Event.collectFor c :: r.2)
          | PyResult.ok rs =>
              (PyResult.ok
                (match o with
                 | some b => b :: rs
                 | none => rs),
               Event.collectFor c :: r.2)

/-- Model of `main`: run the sweep unless `--skip-run` was given, returning
exit code 1 at the first failed invocation; then collect all configurations,
returning exit code 1 when no results were collected and 0 otherwise. An
uncaught exception from collection escapes `main` (`PyResult.raised`): the
interpreter then terminates with a traceback and a non-zero process exit,
not with the normal return value. The second component is the trace of
subprocess invocations and collection steps. -/
def main (skipRun : Bool) (runOk : BenchConfig → Bool) (fs : FS) :
    PyResult Nat × List Event :=
  if skipRun then
    let c := collectLoop fs BENCH_CONFIGS
    match c.1 with
    | PyResult.raised e => (PyResult.raised e, c.2)
    | PyResult.ok rs => (PyResult.ok (if rs.isEmpty then 1 else 0), c.2)
  else
    let r := runPhase runOk BENCH_CONFIGS
    if r.1 then
      let c := collectLoop fs BENCH_CONFIGS
      match c.1 with
      | PyResult.raised e => (PyResult.raised e, r.2 ++ c.2)
      | PyResult.ok rs => (PyResult.ok (if rs.isEmpty then 1 else 0), r.2 ++ c.2)
    else
      (PyResult.ok 1, r.2)

/-- The per-configuration collection outcome when no exception is raised,
as kept by the results list of `main`. -/
def collectOutcome (fs : FS) (c : BenchConfig) : Option BenchResult :=
  match collect_results fs c with
  | PyResult.ok o => o
  | PyResult.raised _ => none

/-- A complete statistics record as criterion writes it, used to exercise
the collector on concrete inputs. -/
def sampleEstimates : Json :=
  Json.obj [("mean", Json.obj [("point_estimate", Json.num 1500000)])]

/-- A sample filesystem state: every phase root exists and carries a full
statistics record, but the `proof_generation` listing has no matching
child. -/
def sampleFS : FS where
  phaseDir := fun ph =>
    match ph with
    | Phase.proof_generation => some []
    | _ => some [⟨"iterations_8192_new", true⟩]
  estimates := fun _ _ => FileContent.parsed sampleEstimates

/-- A statistics record whose `mean` field is a number rather than an
object: subscripting it raises an uncaught `TypeError`. -/
def badEstimates : Json := Json.obj [("mean", Json.num 5)]

/-- A filesystem state on which the first sweep configuration `(1, 8192)`
has a complete result in every phase while the second, `(1, 16384)`, holds
the malformed record `badEstimates` in every phase. -/
def fsBad : FS where
  phaseDir := fun _ =>
    some [⟨"iterations_8192_new", true⟩, ⟨"iterations_16384_new", true⟩]
  estimates := fun _ name =>
    if name = "iterations_8192_new" then FileContent.parsed sampleEstimates
    else FileContent.parsed badEstimates

lemma two_pow_land_pred (k : Nat) : 2 ^ k &&& (2 ^ k - 1) = 0 := by
  apply Nat.eq_of_testBit_eq
  intro i
  rw [Nat.testBit_and, Nat.zero_testBit, Nat.testBit_two_pow,
    Nat.testBit_two_pow_sub_one]
  by_cases h : k = i
  · subst h
    simp
  · simp [h]

lemma eq_two_pow_of_land_pred {n : Nat} (hn : 0 < n) (h : n &&& (n - 1) = 0) :
    n = 2 ^ Nat.log2 n := by
  rw [Nat.log2_eq_log_two]
  have hlow : 2 ^ Nat.log 2 n ≤ n := Nat.pow_log_le_self 2 (by omega)
  have hhigh : n < 2 ^ (Nat.log 2 n + 1) := Nat.lt_pow_succ_log_self (by norm_num) n
  rw [pow_succ] at hhigh
  by_contra hne
  have hgt : 2 ^ Nat.log 2 n < n := lt_of_le_of_ne hlow (fun he => hne he.symm)
  have ht1 : n.testBit (Nat.log 2 n) = true := by
    rw [Nat.testBit_to_div_mod]
    have hd : n / 2 ^ Nat.log 2 n = 1 :=
      Nat.div_eq_of_lt_le (by omega) (by omega)
    simp [hd]
  have ht2 : (n - 1).testBit (Nat.log 2 n) = true := by
    rw [Nat.testBit_to_div_mod]
    have hd : (n - 1) / 2 ^ Nat.log 2 n = 1 :=
      Nat.div_eq_of_lt_le (by omega) (by omega)
    simp [hd]
  have hbit := congrArg (fun m => m.testBit (Nat.log 2 n)) h
  simp only [Nat.testBit_and, ht1, ht2, Nat.zero_testBit, Bool.and_self] at hbit
  exact Bool.noConfusion hbit

lemma land_pred_eq_zero_iff {n : Nat} (hn : 0 < n) :
    n &&& (n - 1) = 0 ↔ ∃ k, n = 2 ^ k := by
  constructor
  · intro h
    exact ⟨Nat.log2 n, eq_two_pow_of_land_pred hn h⟩
  · rintro ⟨k, rfl⟩
    exact two_pow_land_pred k

/-- C9: for every positive `n` that is an exact power of two,
`format_power_of_two n` is the exponent form `$2^{k}$` with `2^k = n`, and
for every other positive `n` it is the plain decimal string of `n`. -/
theorem format_power_of_two_spec (n : Nat) (hn : 0 < n) :
    (∀ k, n = 2 ^ k →
      format_power_of_two n = "$2^\x7b" ++ toString k ++ "\x7d$") ∧
    ((∀ k, n ≠ 2 ^ k) → format_power_of_two n = toString n) := by
  constructor
  · rintro k rfl
    unfold format_power_of_two
    rw [if_pos ⟨Nat.pos_pow_of_pos k (by norm_num), two_pow_land_pred k⟩]
    rw [Nat.log2_eq_log_two, Nat.log_pow (by norm_num)]
  · intro hne
    unfold format_power_of_two
    rw [if_neg]
    rintro ⟨hpos, hland⟩
    obtain ⟨k, hk⟩ := (land_pred_eq_zero_iff hpos).mp hland
    exact hne k hk

/-- Witness for C9: `8192 = 2^13` renders as the exponent form, and `3`,
which is no power of two, renders as its decimal string. -/
theorem format_power_of_two_spec_witness :
    format_power_of_two 8192 = "$2^\x7b" ++ toString 13 ++ "\x7d$" ∧
    format_power_of_two 3 = toString 3 := by
  constructor
  · exact (format_power_of_two_spec 8192 (by norm_num)).1 13 (by norm_num)
  · refine (format_power_of_two_spec 3 (by norm_num)).2 ?_
    intro k
    match k with
    | 0 => decide
    | 1 => decide
    | (j + 2) =>
      have h4 : (4 : Nat) ≤ 2 ^ (j + 2) := by
        calc (4 : Nat) = 2 ^ 2 := by norm_num
        _ ≤ 2 ^ (j + 2) := Nat.pow_le_pow_right (by norm_num) (by omega)
      omega

/-- C10: the environment handed to the benchmark subprocess is the parent
environment with exactly three changes (`ITERATIONS`, `LANES`, and
`RUSTFLAGS` extended additively by the native-CPU flag); every other
variable is forwarded unchanged. The parent map itself is untouched, as
`run_benchmark_env` is a pure function of it. -/
theorem run_benchmark_env_spec (parent : Env) (c : BenchConfig) :
    run_benchmark_env parent c "ITERATIONS" = some (toString c.iterations) ∧
    run_benchmark_env parent c "LANES" = some (toString c.lanes) ∧
    run_benchmark_env parent c "RUSTFLAGS" =
      some (((parent "RUSTFLAGS").getD "") ++ " -C target-cpu=native") ∧
    ∀ k, k ≠ "ITERATIONS" → k ≠ "LANES" → k ≠ "RUSTFLAGS" →
      run_benchmark_env parent c k = parent k := by
  refine ⟨rfl, rfl, rfl, ?_⟩
  intro k h1 h2 h3
  simp [run_benchmark_env, setVar, h1, h2, h3]

/-- Witness for C10 at the empty parent environment and the first
configuration: an unrelated variable is forwarded unchanged and the three
set variables hold the expected values. -/
theorem run_benchmark_env_spec_witness :
    run_benchmark_env (fun _ => none) ⟨1, 8192⟩ "PATH" = none ∧
    run_benchmark_env (fun _ => none) ⟨1, 8192⟩ "ITERATIONS" = some "8192" := by
  constructor
  · exact (run_benchmark_env_spec (fun _ => none) ⟨1, 8192⟩).2.2.2 "PATH"
      (by decide) (by decide) (by decide)
  · exact (run_benchmark_env_spec (fun _ => none) ⟨1, 8192⟩).1

/-- C4: the configuration sweep is a fixed list of exactly 15 pairs, three
tiers of lanes 1, 4, 16 in order, five iteration counts per tier, all powers
of two, with the per-tier products `lanes * iterations` equal to
`2^13 .. 2^17`. -/
theorem bench_configs_sweep :
    BENCH_CONFIGS.length = 15 ∧
    BENCH_CONFIGS.map (fun c => c.lanes) =
      List.replicate 5 1 ++ List.replicate 5 4 ++ List.replicate 5 16 ∧
    BENCH_CONFIGS.map (fun c => c.iterations) =
      [2^13, 2^14, 2^15, 2^16, 2^17, 2^11, 2^12, 2^13, 2^14, 2^15,
       2^9, 2^10, 2^11, 2^12, 2^13] ∧
    BENCH_CONFIGS.map (fun c => c.lanes * c.iterations) =
      [2^13, 2^14, 2^15, 2^16, 2^17, 2^13, 2^14, 2^15, 2^16, 2^17,
       2^13, 2^14, 2^15, 2^16, 2^17] := by decide

/-- C3: the single-lane prefix `iterations_8192_` also matches the multi-lane
directory `iterations_8192_lanes_4_new` (both configurations being part of
the sweep), so with `lanes == 1` the lanes=4 directory can be returned, and
which child is returned depends on the enumeration order. -/
theorem find_benchmark_dir_prefix_overlap :
    BenchConfig.mk 1 8192 ∈ BENCH_CONFIGS ∧
    BenchConfig.mk 4 8192 ∈ BENCH_CONFIGS ∧
    strStartsWith "iterations_8192_lanes_4_new" (prefixFor ⟨1, 8192⟩) = true ∧
    find_benchmark_dir
        (some [⟨"iterations_8192_lanes_4_new", true⟩,
               ⟨"iterations_8192_new", true⟩]) ⟨1, 8192⟩ =
      some ⟨"iterations_8192_lanes_4_new", true⟩ ∧
    find_benchmark_dir
        (some [⟨"iterations_8192_new", true⟩,
               ⟨"iterations_8192_lanes_4_new", true⟩]) ⟨1, 8192⟩ =
      some ⟨"iterations_8192_new", true⟩ := by decide

/-- C7: on well-formed JSON whose `mean` field is a number (and on a
well-formed JSON top level that is itself a number), the subscript raises a
`TypeError`, which the handler does not catch, so the exception propagates
out of `read_benchmark_time` instead of yielding `None`. -/
theorem read_benchmark_time_raises :
    read_benchmark_time
        (FileContent.parsed (Json.obj [("mean", Json.num 5)])) =
      PyResult.raised Exc.typeError ∧
    read_benchmark_time (FileContent.parsed (Json.num 3)) =
      PyResult.raised Exc.typeError :=
  ⟨rfl, rfl⟩

/-- C2: `find_benchmark_dir` computes the lane-less prefix when `lanes = 1`
and the lane-suffixed prefix when `lanes > 1`, returns `none` when the phase
root does not exist or no child matches, and otherwise returns the first
child that is a directory and whose name starts with the prefix. -/
theorem find_benchmark_dir_spec (listing : Option (List Entry)) (c : BenchConfig) :
    (c.lanes = 1 →
      prefixFor c = "iterations_" ++ toString c.iterations ++ "_") ∧
    (1 < c.lanes →
      prefixFor c = "iterations_" ++ toString c.iterations ++ "_lanes_" ++
        toString c.lanes ++ "_") ∧
    find_benchmark_dir none c = none ∧
    (∀ entries, listing = some entries →
      ((∀ e ∈ entries,
          ¬(e.isDir = true ∧ strStartsWith e.name (prefixFor c) = true)) →
        find_benchmark_dir listing c = none) ∧
      (∀ d, find_benchmark_dir listing c = some d ↔
        d.isDir = true ∧ strStartsWith d.name (prefixFor c) = true ∧
        ∃ pre post, entries = pre ++ d :: post ∧
          ∀ e ∈ pre,
            ¬(e.isDir = true ∧ strStartsWith e.name (prefixFor c) = true))) := by
  refine ⟨?_, ?_, rfl, ?_⟩
  · intro h
    unfold prefixFor
    rw [if_pos h]
  · intro h
    unfold prefixFor
    rw [if_neg (by omega)]
  · rintro entries rfl
    constructor
    · intro hall
      simp only [find_benchmark_dir]
      rw [List.find?_eq_none]
      intro x hx hx2
      rw [Bool.and_eq_true] at hx2
      exact hall x hx hx2
    · intro d
      simp only [find_benchmark_dir]
      rw [List.find?_eq_some]
      constructor
      · rintro ⟨hpd, pre, post, heq, hpre⟩
        rw [Bool.and_eq_true] at hpd
        refine ⟨hpd.1, hpd.2, pre, post, heq, ?_⟩
        intro e he
        have h2 := hpre e he
        rintro ⟨ha, hb⟩
        rw [ha, hb] at h2
        exact Bool.noConfusion h2
      · rintro ⟨h1, h2, pre, post, heq, hpre⟩
        refine ⟨by rw [Bool.and_eq_true]; exact ⟨h1, h2⟩, pre, post, heq, ?_⟩
        intro e he
        have h3 := hpre e he
        by_cases hd : e.isDir = true
        · by_cases hs : strStartsWith e.name (prefixFor c) = true
          · exact absurd ⟨hd, hs⟩ h3
          · simp [Bool.eq_false_iff.mpr hs]
        · simp [Bool.eq_false_iff.mpr hd]

/-- Witness for C2: a concrete single-entry listing for the `(16, 512)`
configuration, whose prefix carries the lane suffix and whose only child
matches. -/
theorem find_benchmark_dir_spec_witness :
    prefixFor ⟨16, 512⟩ =
      "iterations_" ++ toString 512 ++ "_lanes_" ++ toString 16 ++ "_" ∧
    find_benchmark_dir (some [⟨"iterations_512_lanes_16_new", true⟩])
        ⟨16, 512⟩ = some ⟨"iterations_512_lanes_16_new", true⟩ := by
  have h := find_benchmark_dir_spec
    (some [⟨"iterations_512_lanes_16_new", true⟩]) ⟨16, 512⟩
  constructor
  · exact h.2.1 (by norm_num)
  · refine ((h.2.2.2 _ rfl).2 _).mpr ⟨rfl, by decide, [],
      [], rfl, ?_⟩
    intro e he
    exact absurd he (List.not_mem_nil e)

/-- C6: `read_benchmark_time` yields `None` when the statistics file is
missing (silently), when it fails to parse, or when the nested field
`mean.point_estimate` is missing (printing a diagnostic in the latter two
cases), and otherwise yields the numeric point estimate divided by exactly
1,000,000. -/
theorem read_benchmark_time_spec :
    (read_benchmark_time FileContent.missing = PyResult.ok none ∧
      read_benchmark_time_logs FileContent.missing = false) ∧
    (read_benchmark_time FileContent.invalid = PyResult.ok none ∧
      read_benchmark_time_logs FileContent.invalid = true) ∧
    (∀ fields, Json.lookup fields "mean" = none →
      read_benchmark_time (FileContent.parsed (Json.obj fields)) =
          PyResult.ok none ∧
        read_benchmark_time_logs (FileContent.parsed (Json.obj fields)) = true) ∧
    (∀ fields mfields, Json.lookup fields "mean" = some (Json.obj mfields) →
      Json.lookup mfields "point_estimate" = none →
      read_benchmark_time (FileContent.parsed (Json.obj fields)) =
          PyResult.ok none ∧
        read_benchmark_time_logs (FileContent.parsed (Json.obj fields)) = true) ∧
    (∀ fields mfields q, Json.lookup fields "mean" = some (Json.obj mfields) →
      Json.lookup mfields "point_estimate" = some (Json.num q) →
      read_benchmark_time (FileContent.parsed (Json.obj fields)) =
        PyResult.ok (some (q / 1000000))) := by
  refine ⟨⟨rfl, rfl⟩, ⟨rfl, rfl⟩, ?_, ?_, ?_⟩
  · intro fields h
    constructor
    · simp [read_benchmark_time, Json.getItem, h]
    · simp [read_benchmark_time_logs, Json.getItem, h]
  · intro fields mfields h1 h2
    constructor
    · simp [read_benchmark_time, Json.getItem, h1, h2]
    · simp [read_benchmark_time_logs, Json.getItem, h1, h2]
  · intro fields mfields q h1 h2
    simp [read_benchmark_time, Json.getItem, Json.divideBy, h1, h2]

/-- Witness for C6: a parsed statistics record with
`mean.point_estimate = 1500000` yields `1.5` milliseconds, and one whose
`mean` object lacks the field yields `None` with a diagnostic. -/
theorem read_benchmark_time_spec_witness :
    read_benchmark_time
        (FileContent.parsed
          (Json.obj [("mean", Json.obj [("point_estimate", Json.num 1500000)])])) =
      PyResult.ok (some (1500000 / 1000000 : ℚ)) ∧
    read_benchmark_time
        (FileContent.parsed (Json.obj [("mean", Json.obj [])])) =
      PyResult.ok none := by
  constructor
  · exact read_benchmark_time_spec.2.2.2.2
      [("mean", Json.obj [("point_estimate", Json.num 1500000)])]
      [("point_estimate", Json.num 1500000)] 1500000 rfl rfl
  · exact (read_benchmark_time_spec.2.2.2.1
      [("mean", Json.obj [])] [] rfl rfl).1

/-- C1: `collect_results` yields a `BenchResult` exactly when the three
phases, queried in the order witness, proof, verify, all yield a present
time, with the three millisecond values assigned in that order; if any
single phase yields `None` the configuration yields no result, even when
the other two phases are present. -/
theorem collect_results_spec (fs : FS) (c : BenchConfig) :
    (∀ r : BenchResult, collect_results fs c = PyResult.ok (some r) ↔
      (r.config = c ∧
       collectPhase fs c Phase.witness_generation =
         PyResult.ok (some r.witness_time_ms) ∧
       collectPhase fs c Phase.proof_generation =
         PyResult.ok (some r.proof_time_ms) ∧
       collectPhase fs c Phase.proof_verification =
         PyResult.ok (some r.verify_time_ms))) ∧
    (∀ ph ∈ phases, collectPhase fs c ph = PyResult.ok none →
      ∀ r : BenchResult, collect_results fs c ≠ PyResult.ok (some r)) ∧
    (∀ ph ∈ phases, collectPhase fs c ph = PyResult.ok none →
      (∀ ph2 ∈ phases, ph2 ≠ ph →
        ∃ t, collectPhase fs c ph2 = PyResult.ok (some t)) →
      collect_results fs c = PyResult.ok none) := by
  have hchar : ∀ r : BenchResult, collect_results fs c = PyResult.ok (some r) ↔
      (r.config = c ∧
       collectPhase fs c Phase.witness_generation =
         PyResult.ok (some r.witness_time_ms) ∧
       collectPhase fs c Phase.proof_generation =
         PyResult.ok (some r.proof_time_ms) ∧
       collectPhase fs c Phase.proof_verification =
         PyResult.ok (some r.verify_time_ms)) := by
    intro r
    obtain ⟨rc, rw0, rp0, rv0⟩ := r
    rcases hw : collectPhase fs c Phase.witness_generation with (_ | wv) | e <;>
      rcases hp : collectPhase fs c Phase.proof_generation with (_ | pv) | e2 <;>
        rcases hv : collectPhase fs c Phase.proof_verification with (_ | vv) | e3 <;>
          simp_all [collect_results]
    exact fun _ _ _ => eq_comm
  refine ⟨hchar, ?_, ?_⟩
  · intro ph _ hnone r hcontra
    obtain ⟨h0, h1, h2, h3⟩ := (hchar r).mp hcontra
    cases ph with
    | witness_generation => rw [hnone] at h1; simp at h1
    | proof_generation => rw [hnone] at h2; simp at h2
    | proof_verification => rw [hnone] at h3; simp at h3
  · intro ph _ hnone hothers
    cases ph with
    | witness_generation =>
        simp [collect_results, hnone]
    | proof_generation =>
        obtain ⟨tw, hw⟩ := hothers Phase.witness_generation (by decide) (by decide)
        simp [collect_results, hw, hnone]
    | proof_verification =>
        obtain ⟨tw, hw⟩ := hothers Phase.witness_generation (by decide) (by decide)
        obtain ⟨tp, hp⟩ := hothers Phase.proof_generation (by decide) (by decide)
        simp [collect_results, hw, hp, hnone]

/-- Witness for C1: on `sampleFS` the witness and verification phases are
present, yet the configuration yields no result because the proof phase
yields `None`. -/
theorem collect_results_spec_witness :
    collect_results sampleFS ⟨1, 8192⟩ = PyResult.ok none := by
  refine (collect_results_spec sampleFS ⟨1, 8192⟩).2.2
    Phase.proof_generation (by decide) rfl ?_
  intro ph2 _ hne
  cases ph2 with
  | witness_generation => exact ⟨1500000 / 1000000, rfl⟩
  | proof_generation => exact absurd rfl hne
  | proof_verification => exact ⟨1500000 / 1000000, rfl⟩

lemma runPhase_all_ok (runOk : BenchConfig → Bool) :
    ∀ cs : List BenchConfig, (∀ x ∈ cs, runOk x = true) →
      runPhase runOk cs = (true, cs.map Event.runBench) := by
  intro cs
  induction cs with
  | nil => intro _; rfl
  | cons a rest ih =>
      intro h
      have ha : runOk a = true := h a (by simp)
      simp [runPhase, ha, ih (fun x hx => h x (by simp [hx]))]

lemma runPhase_fst_iff (runOk : BenchConfig → Bool) :
    ∀ cs : List BenchConfig,
      (runPhase runOk cs).1 = true ↔ ∀ x ∈ cs, runOk x = true := by
  intro cs
  induction cs with
  | nil => simp [runPhase]
  | cons a rest ih =>
      by_cases ha : runOk a = true
      · simp [runPhase, ha, ih]
      · simp [runPhase, ha]

lemma runPhase_fail (runOk : BenchConfig → Bool) (c : BenchConfig) :
    ∀ pre post, (∀ x ∈ pre, runOk x = true) → runOk c = false →
      runPhase runOk (pre ++ c :: post) =
        (false, (pre ++ [c]).map Event.runBench) := by
  intro pre
  induction pre with
  | nil =>
      intro post _ hc
      simp [runPhase, hc]
  | cons a rest ih =>
      intro post h hc
      have ha : runOk a = true := h a (by simp)
      simp [runPhase, ha, ih post (fun x hx => h x (by simp [hx])) hc]

lemma collectLoop_all_ok (fs : FS) : ∀ cs : List BenchConfig,
    (∀ c ∈ cs, ∃ o, collect_results fs c = PyResult.ok o) →
    (collectLoop fs cs).1 = PyResult.ok (cs.filterMap (collectOutcome fs)) ∧
    (collectLoop fs cs).2 = cs.map Event.collectFor := by
  intro cs
  induction cs with
  | nil => intro _; exact ⟨rfl, rfl⟩
  | cons c rest ih =>
      intro h
      obtain ⟨o, ho⟩ := h c (by simp)
      have ihr := ih (fun x hx => h x (by simp [hx]))
      have hout : collectOutcome fs c = o := by
        simp [collectOutcome, ho]
      cases o with
      | none =>
          constructor <;>
            simp [collectLoop, ho, ihr.1, ihr.2, List.filterMap_cons, hout]
      | some b =>
          constructor <;>
            simp [collectLoop, ho, ihr.1, ihr.2, List.filterMap_cons, hout]

lemma collectLoop_ok_forall (fs : FS) : ∀ (cs : List BenchConfig)
    (rs : List BenchResult), (collectLoop fs cs).1 = PyResult.ok rs →
    ∀ c ∈ cs, ∃ o, collect_results fs c = PyResult.ok o := by
  intro cs
  induction cs with
  | nil =>
      intro rs _ c hc
      exact absurd hc (List.not_mem_nil c)
  | cons a rest ih =>
      intro rs hok c hc
      rcases hco : collect_results fs a with o | e
      · rcases hc2 : (collectLoop fs rest).1 with rs2 | e2
        · rcases List.mem_cons.mp hc with rfl | hc3
          · exact ⟨o, hco⟩
          · exact ih rs2 hc2 c hc3
        · exfalso
          simp [collectLoop, hco, hc2] at hok
      · exfalso
        simp [collectLoop, hco] at hok

lemma collectLoop_raises (fs : FS) (c : BenchConfig) (e : Exc) :
    ∀ pre post, (∀ x ∈ pre, ∃ o, collect_results fs x = PyResult.ok o) →
      collect_results fs c = PyResult.raised e →
      (collectLoop fs (pre ++ c :: post)).1 = PyResult.raised e ∧
      (collectLoop fs (pre ++ c :: post)).2 =
        (pre ++ [c]).map Event.collectFor := by
  intro pre
  induction pre with
  | nil =>
      intro post _ hc
      constructor <;> simp [collectLoop, hc]
  | cons a rest ih =>
      intro post h hc
      obtain ⟨o, ho⟩ := h a (by simp)
      have ihr := ih post (fun x hx => h x (by simp [hx])) hc
      constructor <;> simp [collectLoop, ho, ihr.1, ihr.2]

lemma collect_zero_iff (fs : FS) (cs : List BenchConfig) :
    (∃ rs, (collectLoop fs cs).1 = PyResult.ok rs ∧ rs ≠ []) ↔
      ((∀ c ∈ cs, ∃ o, collect_results fs c = PyResult.ok o) ∧
       ∃ c ∈ cs, ∃ r, collect_results fs c = PyResult.ok (some r)) := by
  constructor
  · rintro ⟨rs, hok, hne⟩
    have hall := collectLoop_ok_forall fs cs rs hok
    refine ⟨hall, ?_⟩
    have hform := (collectLoop_all_ok fs cs hall).1
    rw [hok] at hform
    have hrseq : rs = cs.filterMap (collectOutcome fs) := PyResult.ok.inj hform
    have hne2 : cs.filterMap (collectOutcome fs) ≠ [] := by
      rw [← hrseq]; exact hne
    have hex : ¬ ∀ a ∈ cs, collectOutcome fs a = none := by
      intro hforall
      exact hne2 (List.filterMap_eq_nil_iff.mpr hforall)
    push_neg at hex
    obtain ⟨a, ha, hnone⟩ := hex
    obtain ⟨o, ho⟩ := hall a ha
    have hoa : collectOutcome fs a = o := by simp [collectOutcome, ho]
    rw [hoa] at hnone
    cases o with
    | none => exact absurd rfl hnone
    | some r => exact ⟨a, ha, r, ho⟩
  · rintro ⟨hall, c0, hc0, r0, hr0⟩
    obtain ⟨hform, _⟩ := collectLoop_all_ok fs cs hall
    refine ⟨cs.filterMap (collectOutcome fs), hform, ?_⟩
    intro hnil
    have hn0 := List.filterMap_eq_nil_iff.mp hnil c0 hc0
    simp [collectOutcome, hr0] at hn0

/-- Counterexample to C5 as frozen: on `fsBad`, with the run phase skipped
so that no invocation fails, the configuration `(1, 8192)` yields a
complete result, yet the malformed statistics record of `(1, 16384)` raises
an uncaught `TypeError`, so `main` terminates abnormally: a non-zero
process exit caused by malformed per-configuration data alone, even though
a result was collected — a failure situation beyond the two the claim
allows. -/
theorem main_exit_claim_counterexample :
    collect_results fsBad ⟨1, 2^13⟩ =
      PyResult.ok (some ⟨⟨1, 2^13⟩, 1500000 / 1000000, 1500000 / 1000000,
        1500000 / 1000000⟩) ∧
    collect_results fsBad ⟨1, 2^14⟩ = PyResult.raised Exc.typeError ∧
    (main true (fun _ => true) fsBad).1 = PyResult.raised Exc.typeError ∧
    (main true (fun _ => true) fsBad).2 =
      [Event.collectFor ⟨1, 2^13⟩, Event.collectFor ⟨1, 2^14⟩] :=
  ⟨rfl, rfl, rfl, rfl⟩

/-- C5 (amended): the modelled `main` returns exit code 0 or 1 on normal
termination; it returns 0 exactly when the run phase passes (or is
skipped), no configuration raises an uncaught exception during collection,
and at least one configuration yields a result; a first failed invocation
aborts immediately with exit code 1, before any later configuration is run
and before any collection; missing or caught-malformed data alone never
forces a non-zero exit while at least one result is collected; but an
uncaught collection exception escapes `main` at the raising configuration,
even when earlier configurations were collected, so the process terminates
abnormally with a non-zero exit. -/
theorem main_exit_spec (skipRun : Bool) (runOk : BenchConfig → Bool)
    (fs : FS) :
    (∀ code, (main skipRun runOk fs).1 = PyResult.ok code →
      code = 0 ∨ code = 1) ∧
    ((main skipRun runOk fs).1 = PyResult.ok 0 ↔
      ((skipRun = true ∨ ∀ c ∈ BENCH_CONFIGS, runOk c = true) ∧
       (∀ c ∈ BENCH_CONFIGS, ∃ o, collect_results fs c = PyResult.ok o) ∧
       ∃ c ∈ BENCH_CONFIGS, ∃ r,
         collect_results fs c = PyResult.ok (some r))) ∧
    (∀ pre c post, skipRun = false → BENCH_CONFIGS = pre ++ c :: post →
      (∀ x ∈ pre, runOk x = true) → runOk c = false →
      main skipRun runOk fs =
        (PyResult.ok 1, (pre ++ [c]).map Event.runBench)) ∧
    (∀ pre c post e,
      (skipRun = true ∨ ∀ x ∈ BENCH_CONFIGS, runOk x = true) →
      BENCH_CONFIGS = pre ++ c :: post →
      (∀ x ∈ pre, ∃ o, collect_results fs x = PyResult.ok o) →
      collect_results fs c = PyResult.raised e →
      main skipRun runOk fs =
        (PyResult.raised e,
         (if skipRun then [] else BENCH_CONFIGS.map Event.runBench) ++
           (pre ++ [c]).map Event.collectFor)) := by
  cases skipRun with
  | true =>
      refine ⟨?_, ?_, ?_, ?_⟩
      · intro code hcode
        rcases hc : (collectLoop fs BENCH_CONFIGS).1 with rs | e
        · simp [main, hc] at hcode
          by_cases hrs : rs = [] <;>
            simp [List.isEmpty_iff, hrs] at hcode <;> omega
        · simp [main, hc] at hcode
      · constructor
        · intro h0
          rcases hc : (collectLoop fs BENCH_CONFIGS).1 with rs | e
          · refine ⟨Or.inl rfl, ?_⟩
            simp [main, hc] at h0
            by_cases hrs : rs = []
            · simp [List.isEmpty_iff, hrs] at h0
            · exact (collect_zero_iff fs BENCH_CONFIGS).mp ⟨rs, hc, hrs⟩
          · exfalso
            simp [main, hc] at h0
        · rintro ⟨_, hall, hex⟩
          obtain ⟨rs, hok, hne⟩ :=
            (collect_zero_iff fs BENCH_CONFIGS).mpr ⟨hall, hex⟩
          simp [main, hok, List.isEmpty_iff, hne]
      · intro pre c post hfalse
        exact absurd hfalse (by simp)
      · intro pre c post e _ heq hpree hce
        have hcl := collectLoop_raises fs c e pre post hpree hce
        simp [main, heq, hcl.1, hcl.2]
  | false =>
      by_cases hallr : ∀ x ∈ BENCH_CONFIGS, runOk x = true
      · have hrun := runPhase_all_ok runOk BENCH_CONFIGS hallr
        refine ⟨?_, ?_, ?_, ?_⟩
        · intro code hcode
          rcases hc : (collectLoop fs BENCH_CONFIGS).1 with rs | e
          · simp [main, hrun, hc] at hcode
            by_cases hrs : rs = [] <;>
              simp [List.isEmpty_iff, hrs] at hcode <;> omega
          · simp [main, hrun, hc] at hcode
        · constructor
          · intro h0
            rcases hc : (collectLoop fs BENCH_CONFIGS).1 with rs | e
            · refine ⟨Or.inr hallr, ?_⟩
              simp [main, hrun, hc] at h0
              by_cases hrs : rs = []
              · simp [List.isEmpty_iff, hrs] at h0
              · exact (collect_zero_iff fs BENCH_CONFIGS).mp ⟨rs, hc, hrs⟩
            · exfalso
              simp [main, hrun, hc] at h0
          · rintro ⟨_, hall, hex⟩
            obtain ⟨rs, hok, hne⟩ :=
              (collect_zero_iff fs BENCH_CONFIGS).mpr ⟨hall, hex⟩
            simp [main, hrun, hok, List.isEmpty_iff, hne]
        · intro pre c post _ heq hpre hcf
          have hmem : c ∈ BENCH_CONFIGS := by rw [heq]; simp
          rw [hallr c hmem] at hcf
          exact Bool.noConfusion hcf
        · intro pre c post e _ heq hpree hce
          have hcl := collectLoop_raises fs c e pre post hpree hce
          rw [heq] at hrun
          simp [main, heq, hrun, hcl.1, hcl.2]
      · have hfalse : (runPhase runOk BENCH_CONFIGS).1 = false := by
          rcases Bool.eq_false_or_eq_true (runPhase runOk BENCH_CONFIGS).1 with
            h | h
          · exact absurd ((runPhase_fst_iff runOk BENCH_CONFIGS).mp h) hallr
          · exact h
        refine ⟨?_, ?_, ?_, ?_⟩
        · intro code hcode
          right
          simp [main, hfalse] at hcode
          omega
        · constructor
          · intro h0
            exfalso
            simp [main, hfalse] at h0
          · rintro ⟨hor, _, _⟩
            rcases hor with h | h
            · exact absurd h (by simp)
            · exact absurd h hallr
        · intro pre c post _ heq hpre hcf
          have hfail := runPhase_fail runOk c pre post hpre hcf
          simp [main, heq, hfail]
        · intro pre c post e hor heq hpree hce
          rcases hor with h | h
          · exact absurd h (by simp)
          · exact absurd h hallr

/-- Witness for the amended C5: a run function failing first on the
`(4, 2048)` configuration aborts the sweep with exit code 1, the trace
holding exactly the six invocations performed and no collection step. -/
theorem main_exit_spec_witness :
    main false (fun c => decide (c.lanes = 1)) sampleFS =
      (PyResult.ok 1,
       ([⟨1, 2^13⟩, ⟨1, 2^14⟩, ⟨1, 2^15⟩, ⟨1, 2^16⟩, ⟨1, 2^17⟩,
         (⟨4, 2^11⟩ : BenchConfig)]).map Event.runBench) :=
  (main_exit_spec false (fun c => decide (c.lanes = 1)) sampleFS).2.2.1
    [⟨1, 2^13⟩, ⟨1, 2^14⟩, ⟨1, 2^15⟩, ⟨1, 2^16⟩, ⟨1, 2^17⟩] ⟨4, 2^11⟩
    [⟨4, 2^12⟩, ⟨4, 2^13⟩, ⟨4, 2^14⟩, ⟨4, 2^15⟩,
     ⟨16, 2^9⟩, ⟨16, 2^10⟩, ⟨16, 2^11⟩, ⟨16, 2^12⟩, ⟨16, 2^13⟩]
    rfl (by decide) (by decide) (by decide)

lemma space_mem_renderRow (r : BenchResult) : ' ' ∈ (renderRow r).data := by
  unfold renderRow
  rw [String.data_append]
  exact List.mem_append_right _ (by decide)

lemma renderRow_ne_midrule (r : BenchResult) : renderRow r ≠ "\\midrule" := by
  intro h
  have h2 := space_mem_renderRow r
  rw [h] at h2
  revert h2
  decide

lemma tableRows_some_eq (rs : List BenchResult) : ∀ l : Nat,
    tableRows (some l) rs =
      (match rs with
       | [] => ([] : List String)
       | r :: _ => if r.config.lanes = l then [] else ["\\midrule"]) ++
        sepInterleave rs := by
  induction rs with
  | nil => intro l; rfl
  | cons r rest ih =>
      intro l
      cases rest with
      | nil =>
          by_cases h : r.config.lanes = l <;> simp [tableRows, sepInterleave, h]
      | cons b rest2 =>
          have ihr := ih r.config.lanes
          show (if r.config.lanes = l then
                renderRow r :: tableRows (some r.config.lanes) (b :: rest2)
              else
                "\\midrule" :: renderRow r ::
                  tableRows (some r.config.lanes) (b :: rest2)) =
              (if r.config.lanes = l then [] else ["\\midrule"]) ++
                sepInterleave (r :: b :: rest2)
          rw [ihr]
          by_cases h : r.config.lanes = l <;>
            by_cases h2 : b.config.lanes = r.config.lanes <;>
              simp [sepInterleave, h, h2]

lemma tableRows_none_eq (rs : List BenchResult) :
    tableRows none rs = sepInterleave rs := by
  cases rs with
  | nil => rfl
  | cons r rest =>
      cases rest with
      | nil => rfl
      | cons b rest2 =>
          show renderRow r :: tableRows (some r.config.lanes) (b :: rest2) = _
          rw [tableRows_some_eq]
          by_cases h2 : b.config.lanes = r.config.lanes <;>
            simp [sepInterleave, h2]

lemma count_midrule_sepInterleave : ∀ rs : List BenchResult,
    (sepInterleave rs).count "\\midrule" =
      (rs.zip rs.tail).countP
        (fun p => decide (p.2.config.lanes ≠ p.1.config.lanes)) := by
  intro rs
  induction rs with
  | nil => rfl
  | cons a rest ih =>
      cases rest with
      | nil => simp [sepInterleave, List.count_cons, renderRow_ne_midrule a]
      | cons b rest2 =>
          by_cases h : b.config.lanes = a.config.lanes <;>
            simp [sepInterleave, List.count_cons, List.count_append,
              List.countP_cons, renderRow_ne_midrule, ih, h]

lemma sepInterleave_concat (r : BenchResult) : ∀ pre : List BenchResult,
    (sepInterleave (pre ++ [r])).getLast? = some (renderRow r) := by
  intro pre
  induction pre with
  | nil => rfl
  | cons a rest ih =>
      cases rest with
      | nil =>
          by_cases h : r.config.lanes = a.config.lanes <;>
            simp [sepInterleave, h]
      | cons b rest2 =>
          by_cases h : b.config.lanes = a.config.lanes <;>
            simp_all [sepInterleave, h, List.getLast?_append, List.getLast?_cons]

/-- C8: the table body emits exactly one separator between each pair of
consecutive rows whose lanes values differ and none anywhere else: it equals
the spec-level interleaving `sepInterleave`, the separator count equals the
number of adjacent lane transitions, and neither the first nor the last body
line is a separator. -/
theorem generate_table_separators (results : List BenchResult)
    (h : LanesContiguous results) :
    tableRows none results = sepInterleave results ∧
    (tableRows none results).count "\\midrule" =
      (results.zip results.tail).countP
        (fun p => decide (p.2.config.lanes ≠ p.1.config.lanes)) ∧
    (∀ r rest, results = r :: rest →
      (tableRows none results).head? = some (renderRow r)) ∧
    (∀ s, (tableRows none results).head? = some s → s ≠ "\\midrule") ∧
    (∀ s, (tableRows none results).getLast? = some s → s ≠ "\\midrule") := by
  refine ⟨tableRows_none_eq results, ?_, ?_, ?_, ?_⟩
  · rw [tableRows_none_eq]
    exact count_midrule_sepInterleave results
  · rintro r rest rfl
    rfl
  · intro s hs
    cases results with
    | nil => simp [tableRows] at hs
    | cons r rest =>
        have hh : (tableRows none (r :: rest)).head? = some (renderRow r) := rfl
        rw [hh] at hs
        rw [(Option.some.inj hs).symm] at *
        exact fun hcon => renderRow_ne_midrule r hcon
  · intro s hs
    rw [tableRows_none_eq] at hs
    rcases List.eq_nil_or_concat results with rfl | ⟨pre, r, rfl⟩
    · simp [sepInterleave] at hs
    · rw [List.concat_eq_append, sepInterleave_concat r pre] at hs
      rw [(Option.some.inj hs).symm] at *
      exact fun hcon => renderRow_ne_midrule r hcon

/-- Witness for C8 on the three-row scenario of the spec (two lanes-1 rows, one
lanes-4 row): the body equals the interleaving with its single separator at
the lane transition. -/
theorem generate_table_separators_witness :
    tableRows none [⟨⟨1, 8192⟩, 1, 1, 1⟩, ⟨⟨1, 16384⟩, 1, 1, 1⟩,
        ⟨⟨4, 2048⟩, 1, 1, 1⟩] =
      sepInterleave [⟨⟨1, 8192⟩, 1, 1, 1⟩, ⟨⟨1, 16384⟩, 1, 1, 1⟩,
        ⟨⟨4, 2048⟩, 1, 1, 1⟩] :=
  (generate_table_separators
    [⟨⟨1, 8192⟩, 1, 1, 1⟩, ⟨⟨1, 16384⟩, 1, 1, 1⟩, ⟨⟨4, 2048⟩, 1, 1, 1⟩]
    (by decide)).1

end BenchIteratedF
